import Mathlib

/-!
# Verification of the gigarandr monitor-configuration tool

A shallow embedding of `src/gigarandr.py` (keyword resolver, layout
command builder, and the `main` lifecycle control flow), together with
theorems settling the specification claims about it.

Conventions of the embedding:
* Python `Optional[int]` fields become `Option Int`.
* Python truthiness tests on such fields (`if m["width"]`) become
  `truthy`, which is false exactly on `none` and `some 0`.
* Python's `max`/`min` with a key function return the first element
  attaining the extremum; `maxByFirst`/`minByFirst` mirror that.
* `int(s)` is modelled by `pyInt` (ASCII fragment of CPython `int`:
  surrounding whitespace stripped, optional sign, digits with single
  underscores in between).
* Logging is a side effect outside the token sequences and is not
  modelled; process interaction (`subprocess.run`, `sys.exit`) is
  modelled by passing in the external utility's result (`ApplyResult`)
  and observing the resulting control flow (`RunTrace`).
-/

/-- A connected monitor record, as produced by `get_connected_monitors`
(src/gigarandr.py lines 140-144): a name plus optional width/height. -/
structure Monitor where
  name : String
  width : Option Int
  height : Option Int
deriving Repr, DecidableEq

/-- Contiguous-sublist check on character lists: does `needle` occur
starting at some position of the haystack? -/
def infixCheck (needle : List Char) : List Char → Bool
  | [] => needle.isEmpty
  | c :: tl => needle.isPrefixOf (c :: tl) || infixCheck needle tl

/-- Python substring containment `needle in haystack` on strings. -/
def strContains (haystack needle : String) : Bool :=
  infixCheck needle.data haystack.data

/-- The internal-panel naming pattern used at lines 162 and 182:
`"eDP" in name or "LVDS" in name`. -/
def isLaptopName (nm : String) : Bool :=
  strContains nm "eDP" || strContains nm "LVDS"

/-- A monitor whose name matches the laptop (internal-panel) pattern. -/
def isLaptopMonitor (m : Monitor) : Bool :=
  isLaptopName m.name

/-- Python truthiness of an `Optional[int]` value: `None` and `0` are
falsy, every other integer is truthy. -/
def truthy : Option Int → Bool
  | none => false
  | some n => n != 0

/-- The sort key `m["width"] * m["height"]` (lines 167 and 173); on the
lists it is applied to, both fields are always `some` and non-zero. -/
def area (m : Monitor) : Int :=
  m.width.getD 0 * m.height.getD 0

/-- Loop of CPython `max(..., key=key)`: scan the remaining list,
replacing the current best only on a strictly greater key, so the first
element attaining the maximum wins. -/
def maxByFirstAux (key : Monitor → Int) (best : Monitor) : List Monitor → Monitor
  | [] => best
  | m :: ms => maxByFirstAux key (if key best < key m then m else best) ms

/-- CPython `max(l, key=key)` returning `none` on the empty list. -/
def maxByFirst (key : Monitor → Int) : List Monitor → Option Monitor
  | [] => none
  | m :: ms => some (maxByFirstAux key m ms)

/-- Loop of CPython `min(..., key=key)`: replace only on a strictly
smaller key, so the first element attaining the minimum wins. -/
def minByFirstAux (key : Monitor → Int) (best : Monitor) : List Monitor → Monitor
  | [] => best
  | m :: ms => minByFirstAux key (if key m < key best then m else best) ms

/-- CPython `min(l, key=key)` returning `none` on the empty list. -/
def minByFirst (key : Monitor → Int) : List Monitor → Option Monitor
  | [] => none
  | m :: ms => some (minByFirstAux key m ms)

/-- Numeric value of an ASCII digit character. -/
def digitVal (c : Char) : Nat :=
  c.toNat - 48

/-- Digit-run scanner of CPython `int`: digits with single underscores
between digit groups; `prevDigit` records whether the previous character
was a digit (so the run may neither start nor end with an underscore,
nor contain two in a row, and must contain at least one digit). -/
def pyDigits (acc : Nat) (prevDigit : Bool) : List Char → Option Nat
  | [] => if prevDigit then some acc else none
  | c :: cs =>
      if c.isDigit then pyDigits (acc * 10 + digitVal c) true cs
      else if c = '_' then
        if prevDigit then pyDigits acc false cs else none
      else none

/-- Model of CPython `int(s)` on ASCII text (used at line 179):
surrounding whitespace is stripped, then an optional `+`/`-` sign is
followed by a non-empty underscore-grouped digit run; anything else
raises `ValueError`, modelled as `none`. -/
def pyInt (s : String) : Option Int :=
  let cs := ((s.data.dropWhile Char.isWhitespace).reverse.dropWhile
      Char.isWhitespace).reverse
  match cs with
  | '-' :: rest => (pyDigits 0 false rest).map fun n => -(n : Int)
  | '+' :: rest => (pyDigits 0 false rest).map fun n => (n : Int)
  | rest => (pyDigits 0 false rest).map fun n => (n : Int)

/-- Python `s.split(sep, 1)` restricted to what the source needs: `none`
when `sep` does not occur in the list (Python `sep in s` false), else
the parts before and after the first occurrence. -/
def splitAtFirst (sep : Char) : List Char → Option (List Char × List Char)
  | [] => none
  | x :: xs =>
      if x = sep then some ([], xs)
      else (splitAtFirst sep xs).map fun p => (x :: p.1, p.2)

/-- Python `keyword.startswith(p)`. -/
def strStartsWith (s p : String) : Bool :=
  p.data.isPrefixOf s.data

/-- `resolve_monitor_keyword` (src/gigarandr.py lines 149-196): resolve
`"laptop"`, `"largest"`, `"smallest"`, `"external-N"` or a literal
monitor name against the inventory, returning `none` on failure. -/
def resolve_monitor_keyword (monitors : List Monitor) (keyword : String) :
    Option String :=
  if keyword = "laptop" then
    (monitors.find? isLaptopMonitor).map Monitor.name
  else if keyword = "largest" then
    (maxByFirst area (monitors.filter fun m =>
      truthy m.width && truthy m.height)).map Monitor.name
  else if keyword = "smallest" then
    (minByFirst area (monitors.filter fun m =>
      truthy m.width && truthy m.height)).map Monitor.name
  else if strStartsWith keyword "external-" then
    match splitAtFirst '-' keyword.data with
    | none => none
    | some (_, numChars) =>
        match pyInt (String.mk numChars) with
        | none => none
        | some n =>
            if 0 < n ∧
                n ≤ ((monitors.filter fun m => !isLaptopMonitor m).length : Int) then
              ((monitors.filter fun m => !isLaptopMonitor m).get?
                (n.toNat - 1)).map Monitor.name
            else none
  else
    if monitors.any fun m => m.name == keyword then some keyword
    else none

/-- One entry of the `"monitors"` list of the configuration file
(src/gigarandr.py lines 210-235): a name or keyword, an optional
primary flag, an optional position string and an optional refresh rate
(kept as the integer passed to `str`). -/
structure MonitorConfigEntry where
  name : String
  primary : Bool := false
  position : Option String := none
  refresh_rate : Option Int := none
deriving Repr, DecidableEq

/-- The refresh-rate tokens of lines 233-235: `if refresh_rate:` is a
Python truthiness test, so `0` emits nothing. -/
def rateTokens (e : MonitorConfigEntry) : List String :=
  match e.refresh_rate with
  | none => []
  | some r => if r = 0 then [] else ["--rate", toString r]

/-- Body of the entry loop of `manage_monitors` (lines 210-235): the
tokens one config entry appends to `commands`.  An unresolved name
skips the entry (`continue` at line 215, nothing appended); an
unresolved position reference hits the `continue` at line 229, keeping
only the tokens already queued — in particular the refresh-rate tokens
are not reached; a position without a space (or an empty, hence falsy,
position string) skips only the position tokens. -/
def entryDirectives (monitors : List Monitor) (e : MonitorConfigEntry) :
    List String :=
  match resolve_monitor_keyword monitors e.name with
  | none => []
  | some name =>
      let base := ["--output", name, "--auto"] ++
        (if e.primary then ["--primary"] else [])
      match e.position with
      | none => base ++ rateTokens e
      | some pos =>
          if pos = "" then base ++ rateTokens e
          else
            match splitAtFirst ' ' pos.data with
            | none => base ++ rateTokens e
            | some (dir, refChars) =>
                match resolve_monitor_keyword monitors (String.mk refChars) with
                | none => base
                | some refName =>
                    base ++ ["--" ++ String.mk dir, refName] ++ rateTokens e

/-- The command list built by `manage_monitors` before invocation
(lines 207-235): `['xrandr']` extended by each entry in order. -/
def buildCommands (monitors : List Monitor)
    (entries : List MonitorConfigEntry) : List String :=
  entries.foldl (fun cmds e => cmds ++ entryDirectives monitors e) ["xrandr"]

/-- Result of the external apply utility invocation, as observed by
`subprocess.run` at lines 240-246: exit status and captured stderr. -/
structure ApplyResult where
  exitCode : Nat
  stderr : String
deriving Repr, DecidableEq

/-- Outcome of the tail of `manage_monitors` (lines 237-254). -/
inductive ManageOutcome where
  /-- `len(commands) <= 1`: warn "No monitor configurations to apply",
  the utility is not invoked. -/
  | nothingToApply
  /-- Utility invoked, exit status zero; the flag records whether
  stderr was non-empty (logged as a warning, line 248-249). -/
  | applied (stderrWarned : Bool)
  /-- Utility invoked, non-zero exit: `CalledProcessError` is caught,
  the error logged, and `sys.exit(1)` raised (lines 250-252). -/
  | fatalExit
deriving Repr, DecidableEq

/-- Tail of `manage_monitors` (lines 237-254): invoke the utility only
when some entry emitted tokens, treating non-zero exit as fatal. -/
def manageOutcome (monitors : List Monitor)
    (entries : List MonitorConfigEntry) (r : ApplyResult) : ManageOutcome :=
  let commands := buildCommands monitors entries
  if 1 < commands.length then
    if r.exitCode = 0 then .applied (r.stderr != "") else .fatalExit
  else .nothingToApply

/-- Observable trace of one run of `main` (lines 257-280): which hook
stages ran, the monitor names written to the state file (`none` when
`save_state` was never reached), and the process exit code. -/
structure RunTrace where
  ranPresyncHook : Bool
  ranSyncHook : Bool
  stateSaved : Option (List String)
  ranPostsyncHook : Bool
  exitCode : Nat
deriving Repr, DecidableEq

/-- Control flow of `main` (lines 257-280), parameterised by the
detected inventory, the loaded config entries and the apply utility's
result: presync always runs; an empty inventory exits 1; a fatal apply
exits 1 before the sync hook, state save and postsync hook; otherwise
the run completes, saving `{m["name"]: True for m in monitors}`. -/
def mainRun (monitors : List Monitor) (entries : List MonitorConfigEntry)
    (r : ApplyResult) : RunTrace :=
  if monitors.isEmpty then
    ⟨true, false, none, false, 1⟩
  else
    match manageOutcome monitors entries r with
    | .fatalExit => ⟨true, false, none, false, 1⟩
    | _ => ⟨true, true, some (monitors.map Monitor.name), true, 0⟩

/-! ## Concrete inventories and configurations used as test inputs -/

/-- A single non-laptop monitor. -/
def c1Monitors : List Monitor := [⟨"HDMI-1", some 2560, some 1440⟩]

/-- An entry whose position reference cannot be resolved although a
refresh rate is configured. -/
def c1Entry : MonitorConfigEntry :=
  ⟨"HDMI-1", false, some "left-of DP-9", some 60⟩

/-- A one-monitor inventory for the apply-phase scenarios. -/
def c2Monitors : List Monitor := [⟨"HDMI-1", some 2560, some 1440⟩]

/-- A config that emits directives for `c2Monitors`. -/
def c2Entries : List MonitorConfigEntry := [⟨"HDMI-1", true, none, none⟩]

/-- Monitor "A" has both dimensions known, but a zero width. -/
def c3Monitors : List Monitor :=
  [⟨"A", some 0, some 100⟩, ⟨"B", some 5, some 5⟩]

/-- Two sized monitors with distinct areas. -/
def c3Demo : List Monitor := [⟨"A", some 4, some 4⟩, ⟨"B", some 2, some 2⟩]

/-- A laptop panel plus one external monitor. -/
def c4Monitors : List Monitor :=
  [⟨"eDP-1", some 1920, some 1080⟩, ⟨"HDMI-1", some 2560, some 1440⟩]

/-- A config naming a monitor that is never connected. -/
def c5Entries : List MonitorConfigEntry := [⟨"DP-7", false, none, none⟩]

/-- An entry with a spaceless position string and a refresh rate. -/
def c7Entry : MonitorConfigEntry := ⟨"HDMI-1", true, some "above", some 60⟩

/-- An inventory containing an internal panel. -/
def c8Monitors : List Monitor := [⟨"eDP-1", some 1920, some 1080⟩]

/-! ## Helper lemmas -/

theorem mk_data (s : String) : String.mk s.data = s := by
  cases s
  rfl

theorem isPrefixOf_append_self (l m : List Char) :
    l.isPrefixOf (l ++ m) = true := by
  induction l with
  | nil => simp [List.isPrefixOf]
  | cons a as ih => simp [List.isPrefixOf, ih]

theorem splitAtFirst_eq_none (sep : Char) (l : List Char)
    (h : ∀ x ∈ l, x ≠ sep) : splitAtFirst sep l = none := by
  induction l with
  | nil => rfl
  | cons a as ih =>
      have ha : ¬ a = sep := h a (List.mem_cons_self a as)
      simp [splitAtFirst, ha,
        ih fun x hx => h x (List.mem_cons_of_mem a hx)]

theorem splitAtFirst_append (sep : Char) (l₁ l₂ : List Char)
    (h : ∀ x ∈ l₁, x ≠ sep) :
    splitAtFirst sep (l₁ ++ sep :: l₂) = some (l₁, l₂) := by
  induction l₁ with
  | nil => simp [splitAtFirst]
  | cons a as ih =>
      have ha : ¬ a = sep := h a (List.mem_cons_self a as)
      simp [splitAtFirst, ha,
        ih fun x hx => h x (List.mem_cons_of_mem a hx)]

theorem external_append_ne (s t : String) (ht : t.data.length < 9) :
    "external-" ++ s ≠ t := by
  intro h
  have h2 : ("external-" ++ s).data.length = t.data.length := by rw [h]
  rw [String.data_append, List.length_append] at h2
  have h3 : ("external-" : String).data.length = 9 := rfl
  omega

theorem maxByFirstAux_spec (key : Monitor → Int) (l : List Monitor) :
    ∀ best : Monitor, ∃ pre suf : List Monitor,
      best :: l = pre ++ maxByFirstAux key best l :: suf ∧
      (∀ x ∈ pre, key x < key (maxByFirstAux key best l)) ∧
      (∀ x ∈ best :: l, key x ≤ key (maxByFirstAux key best l)) := by
  induction l with
  | nil =>
      intro best
      exact ⟨[], [], rfl, by simp, by simp [maxByFirstAux]⟩
  | cons m ms ih =>
      intro best
      by_cases hlt : key best < key m
      · obtain ⟨pre, suf, hdec, hpre, hle⟩ := ih m
        simp only [maxByFirstAux, if_pos hlt]
        refine ⟨best :: pre, suf, ?_, ?_, ?_⟩
        · rw [List.cons_append]
          exact congrArg (best :: ·) hdec
        · intro x hx
          rcases List.mem_cons.mp hx with rfl | hx
          · exact lt_of_lt_of_le hlt (hle m (List.mem_cons_self m ms))
          · exact hpre x hx
        · intro x hx
          rcases List.mem_cons.mp hx with rfl | hx
          · exact le_of_lt (lt_of_lt_of_le hlt (hle m (List.mem_cons_self m ms)))
          · exact hle x hx
      · obtain ⟨pre, suf, hdec, hpre, hle⟩ := ih best
        simp only [maxByFirstAux, if_neg hlt]
        have hm : key m ≤ key best := not_lt.mp hlt
        cases pre with
        | nil =>
            rw [List.nil_append] at hdec
            have hb : best = maxByFirstAux key best ms :=
              (List.cons.inj hdec).1
            refine ⟨[], m :: ms, ?_, by simp, ?_⟩
            · rw [List.nil_append, ← hb]
            · intro x hx
              rcases List.mem_cons.mp hx with rfl | hx
              · exact le_of_eq (congrArg key hb)
              · rcases List.mem_cons.mp hx with rfl | hx
                · exact le_trans hm (le_of_eq (congrArg key hb))
                · exact hle x (List.mem_cons_of_mem best hx)
        | cons q pre₂ =>
            rw [List.cons_append] at hdec
            obtain ⟨hq, hms⟩ := List.cons.inj hdec
            have hqlt : key best < key (maxByFirstAux key best ms) := by
              have h5 := hpre q (List.mem_cons_self q pre₂)
              rw [← hq] at h5
              exact h5
            refine ⟨best :: m :: pre₂, suf, ?_, ?_, ?_⟩
            · rw [List.cons_append, List.cons_append, ← hms]
            · intro x hx
              rcases List.mem_cons.mp hx with rfl | hx
              · exact hqlt
              · rcases List.mem_cons.mp hx with rfl | hx
                · exact lt_of_le_of_lt hm hqlt
                · exact hpre x (List.mem_cons_of_mem q hx)
            · intro x hx
              rcases List.mem_cons.mp hx with rfl | hx
              · exact le_of_lt hqlt
              · rcases List.mem_cons.mp hx with rfl | hx
                · exact le_trans hm (le_of_lt hqlt)
                · exact hle x (List.mem_cons_of_mem best hx)

theorem minByFirstAux_eq (key : Monitor → Int) (l : List Monitor) :
    ∀ best : Monitor,
      minByFirstAux key best l = maxByFirstAux (fun m => -(key m)) best l := by
  induction l with
  | nil => intro best; rfl
  | cons m ms ih =>
      intro best
      by_cases h : key m < key best
      · simp only [minByFirstAux, maxByFirstAux, if_pos h,
          if_pos (show -(key best) < -(key m) by omega), ih]
      · simp only [minByFirstAux, maxByFirstAux, if_neg h,
          if_neg (show ¬ -(key best) < -(key m) by omega), ih]

theorem minByFirstAux_spec (key : Monitor → Int) (l : List Monitor) :
    ∀ best : Monitor, ∃ pre suf : List Monitor,
      best :: l = pre ++ minByFirstAux key best l :: suf ∧
      (∀ x ∈ pre, key (minByFirstAux key best l) < key x) ∧
      (∀ x ∈ best :: l, key (minByFirstAux key best l) ≤ key x) := by
  intro best
  rw [minByFirstAux_eq]
  obtain ⟨pre, suf, hdec, hpre, hle⟩ :=
    maxByFirstAux_spec (fun m => -(key m)) l best
  refine ⟨pre, suf, hdec, ?_, ?_⟩
  · intro x hx
    have h1 : -(key x) < -(key (maxByFirstAux (fun m => -(key m)) best l)) :=
      hpre x hx
    omega
  · intro x hx
    have h1 : -(key x) ≤ -(key (maxByFirstAux (fun m => -(key m)) best l)) :=
      hle x hx
    omega

theorem maxByFirst_spec (key : Monitor → Int) (l : List Monitor)
    (hl : l ≠ []) :
    ∃ (b : Monitor) (pre suf : List Monitor),
      maxByFirst key l = some b ∧ l = pre ++ b :: suf ∧
      (∀ x ∈ pre, key x < key b) ∧ (∀ x ∈ l, key x ≤ key b) := by
  cases l with
  | nil => exact absurd rfl hl
  | cons m ms =>
      obtain ⟨pre, suf, hdec, hpre, hle⟩ := maxByFirstAux_spec key ms m
      exact ⟨maxByFirstAux key m ms, pre, suf, rfl, hdec, hpre, hle⟩

theorem minByFirst_spec (key : Monitor → Int) (l : List Monitor)
    (hl : l ≠ []) :
    ∃ (b : Monitor) (pre suf : List Monitor),
      minByFirst key l = some b ∧ l = pre ++ b :: suf ∧
      (∀ x ∈ pre, key b < key x) ∧ (∀ x ∈ l, key b ≤ key x) := by
  cases l with
  | nil => exact absurd rfl hl
  | cons m ms =>
      obtain ⟨pre, suf, hdec, hpre, hle⟩ := minByFirstAux_spec key ms m
      exact ⟨minByFirstAux key m ms, pre, suf, rfl, hdec, hpre, hle⟩

theorem maxByFirst_mem (key : Monitor → Int) (l : List Monitor)
    (b : Monitor) (h : maxByFirst key l = some b) : b ∈ l := by
  cases l with
  | nil => simp [maxByFirst] at h
  | cons m ms =>
      obtain ⟨pre, suf, hdec, _, _⟩ := maxByFirstAux_spec key ms m
      have hb : maxByFirstAux key m ms = b := by
        simpa [maxByFirst] using h
      rw [← hb, hdec]
      exact List.mem_append_right pre (List.mem_cons_self _ _)

theorem minByFirst_mem (key : Monitor → Int) (l : List Monitor)
    (b : Monitor) (h : minByFirst key l = some b) : b ∈ l := by
  cases l with
  | nil => simp [minByFirst] at h
  | cons m ms =>
      obtain ⟨pre, suf, hdec, _, _⟩ := minByFirstAux_spec key ms m
      have hb : minByFirstAux key m ms = b := by
        simpa [minByFirst] using h
      rw [← hb, hdec]
      exact List.mem_append_right pre (List.mem_cons_self _ _)

theorem foldl_append_tokens (monitors : List Monitor) :
    ∀ (l : List MonitorConfigEntry) (init : List String),
      l.foldl (fun cmds e => cmds ++ entryDirectives monitors e) init =
        init ++ (l.map (entryDirectives monitors)).flatten := by
  intro l
  induction l with
  | nil => intro init; simp
  | cons e es ih => intro init; simp [ih, List.append_assoc]

theorem buildCommands_eq (monitors : List Monitor)
    (entries : List MonitorConfigEntry) :
    buildCommands monitors entries =
      "xrandr" :: (entries.map (entryDirectives monitors)).flatten := by
  rw [buildCommands, foldl_append_tokens]
  rfl

theorem flatten_nil_of_all_nil {α β : Type} (g : α → List β) :
    ∀ l : List α, (∀ e ∈ l, g e = []) → (l.map g).flatten = [] := by
  intro l
  induction l with
  | nil => intro _; rfl
  | cons e es ih =>
      intro h
      rw [List.map_cons, List.flatten_cons, h e (List.mem_cons_self e es),
        ih fun x hx => h x (List.mem_cons_of_mem e hx)]
      rfl

/-! ## Claim theorems -/

/-- **C1** (counterexample). The claim asserts that when an entry's name
resolves but its position reference does not, the refresh-rate directive
is still emitted.  On `c1Entry` (resolvable name, unresolvable position
reference `"DP-9"`, `refresh_rate = 60`) the builder stops the entry at
the `continue` of line 229: the emitted tokens are exactly the queued
output/auto tokens and no `--rate` token appears. -/
theorem c1_counterexample :
    resolve_monitor_keyword c1Monitors "HDMI-1" = some "HDMI-1" ∧
    resolve_monitor_keyword c1Monitors "DP-9" = none ∧
    c1Entry.position = some "left-of DP-9" ∧
    c1Entry.refresh_rate = some 60 ∧
    entryDirectives c1Monitors c1Entry = ["--output", "HDMI-1", "--auto"] ∧
    (entryDirectives c1Monitors c1Entry).contains "--rate" = false := by
  decide

/-- **C1** (amended). For every config entry whose name resolves but
whose position reference keyword fails to resolve, the directives
already queued for the entry (output-selection/auto and primary) remain
in the command list, but the position directive and all remaining
directives of the entry — in particular the refresh-rate directive —
are skipped, and processing of subsequent entries continues. -/
theorem c1_position_ref_failure_keeps_only_queued_tokens
    (monitors : List Monitor) (e : MonitorConfigEntry) (n p : String)
    (d refc : List Char) (pre post : List MonitorConfigEntry)
    (hn : resolve_monitor_keyword monitors e.name = some n)
    (hp : e.position = some p)
    (hsplit : splitAtFirst ' ' p.data = some (d, refc))
    (href : resolve_monitor_keyword monitors (String.mk refc) = none) :
    entryDirectives monitors e =
      ["--output", n, "--auto"] ++
        (if e.primary then ["--primary"] else []) ∧
    buildCommands monitors (pre ++ e :: post) =
      buildCommands monitors pre ++ entryDirectives monitors e ++
        (post.map (entryDirectives monitors)).flatten := by
  have hpne : ¬ p = "" := by
    intro h0
    rw [h0] at hsplit
    simp [splitAtFirst] at hsplit
  constructor
  · simp [entryDirectives, hn, hp, hpne, hsplit, href]
  · rw [buildCommands_eq, buildCommands_eq]
    simp [List.flatten_append, List.append_assoc]

/-- **C1** (witness): the amended theorem applied to the concrete
counterexample inputs. -/
theorem c1_witness :
    entryDirectives c1Monitors c1Entry =
      ["--output", "HDMI-1", "--auto"] ++
        (if c1Entry.primary then ["--primary"] else []) ∧
    buildCommands c1Monitors ([] ++ c1Entry :: []) =
      buildCommands c1Monitors [] ++ entryDirectives c1Monitors c1Entry ++
        (([] : List MonitorConfigEntry).map
          (entryDirectives c1Monitors)).flatten :=
  c1_position_ref_failure_keeps_only_queued_tokens c1Monitors c1Entry
    "HDMI-1" "left-of DP-9" "left-of".data "DP-9".data [] []
    (by decide) rfl (by decide) (by decide)

/-- **C5**: if no config entry emitted any directive, the built command
sequence is just the bare `xrandr` token, the external apply utility is
not invoked, and "nothing to apply" is signaled. -/
theorem c5_no_directives_means_no_invocation (monitors : List Monitor)
    (entries : List MonitorConfigEntry) (r : ApplyResult)
    (h : ∀ e ∈ entries, entryDirectives monitors e = []) :
    buildCommands monitors entries = ["xrandr"] ∧
    manageOutcome monitors entries r = .nothingToApply := by
  have hb : buildCommands monitors entries = ["xrandr"] := by
    rw [buildCommands_eq, flatten_nil_of_all_nil _ entries h]
  exact ⟨hb, by simp [manageOutcome, hb]⟩

/-- **C5** (witness): a config naming an unconnected monitor emits
nothing, so the utility is not invoked. -/
theorem c5_witness :
    buildCommands [] c5Entries = ["xrandr"] ∧
    manageOutcome [] c5Entries ⟨0, ""⟩ = .nothingToApply :=
  c5_no_directives_means_no_invocation [] c5Entries ⟨0, ""⟩ (by decide)

/-- **C6**: when the apply utility is invoked (some entry emitted
directives, inventory non-empty) and exits non-zero, the run ends with
exit code 1, the state file is never written, and neither the sync nor
the postsync hook stage runs. -/
theorem c6_nonzero_exit_exits_without_state_save (monitors : List Monitor)
    (entries : List MonitorConfigEntry) (r : ApplyResult)
    (hm : monitors ≠ [])
    (hinv : 1 < (buildCommands monitors entries).length)
    (hexit : r.exitCode ≠ 0) :
    mainRun monitors entries r = ⟨true, false, none, false, 1⟩ := by
  obtain ⟨m0, ms, rfl⟩ : ∃ m0 ms, monitors = m0 :: ms := by
    cases monitors with
    | nil => exact absurd rfl hm
    | cons a l => exact ⟨a, l, rfl⟩
  have hmo : manageOutcome (m0 :: ms) entries r = .fatalExit := by
    simp [manageOutcome, hinv, hexit]
  simp [mainRun, hmo]

/-- **C6** (witness): a failing apply invocation on a concrete run. -/
theorem c6_witness :
    mainRun c2Monitors c2Entries ⟨2, "boom"⟩ = ⟨true, false, none, false, 1⟩ :=
  c6_nonzero_exit_exits_without_state_save c2Monitors c2Entries ⟨2, "boom"⟩
    (by decide) (by decide) (by decide)

/-- **C9**: command building is deterministic — for a fixed inventory
and configuration, two successive builds of the command token sequence
(and two runs observing the same utility result) produce identical
output. -/
theorem c9_build_deterministic (monitors : List Monitor)
    (entries : List MonitorConfigEntry) (r : ApplyResult)
    (c₁ c₂ : List String) (t₁ t₂ : RunTrace)
    (h1 : c₁ = buildCommands monitors entries)
    (h2 : c₂ = buildCommands monitors entries)
    (h3 : t₁ = mainRun monitors entries r)
    (h4 : t₂ = mainRun monitors entries r) :
    c₁ = c₂ ∧ t₁ = t₂ :=
  ⟨h1.trans h2.symm, h3.trans h4.symm⟩

/-- **C9** (witness): two successive builds on a concrete input. -/
theorem c9_witness :
    buildCommands c2Monitors c2Entries = buildCommands c2Monitors c2Entries ∧
    mainRun c2Monitors c2Entries ⟨0, ""⟩ = mainRun c2Monitors c2Entries ⟨0, ""⟩ :=
  c9_build_deterministic c2Monitors c2Entries ⟨0, ""⟩ _ _ _ _ rfl rfl rfl rfl

/-- **C2** (counterexample). The claim asserts that any error output of
the apply utility is treated as fatal.  On a concrete run where the
utility exits 0 but writes to stderr, the stderr content is only logged
as a warning (lines 248-249): the run continues through the sync hook,
state save and postsync hook and exits 0. -/
theorem c2_counterexample :
    manageOutcome c2Monitors c2Entries ⟨0, "xrandr: mode warning"⟩ =
      .applied true ∧
    mainRun c2Monitors c2Entries ⟨0, "xrandr: mode warning"⟩ =
      ⟨true, true, some ["HDMI-1"], true, 0⟩ := by
  decide

/-- **C2** (amended). When the apply utility is invoked, a non-zero exit
status is fatal: no sync/postsync hooks run, no state is saved, and the
process exits 1.  Error output with a zero exit status is not fatal: it
is recorded as a warning and the run completes normally with exit 0. -/
theorem c2_nonzero_exit_fatal_stderr_warning_only (monitors : List Monitor)
    (entries : List MonitorConfigEntry) (r : ApplyResult)
    (hm : monitors ≠ [])
    (hinv : 1 < (buildCommands monitors entries).length) :
    (r.exitCode ≠ 0 →
      manageOutcome monitors entries r = .fatalExit ∧
      mainRun monitors entries r = ⟨true, false, none, false, 1⟩) ∧
    (r.exitCode = 0 →
      manageOutcome monitors entries r = .applied (r.stderr != "") ∧
      mainRun monitors entries r =
        ⟨true, true, some (monitors.map Monitor.name), true, 0⟩) := by
  obtain ⟨m0, ms, rfl⟩ : ∃ m0 ms, monitors = m0 :: ms := by
    cases monitors with
    | nil => exact absurd rfl hm
    | cons a l => exact ⟨a, l, rfl⟩
  constructor
  · intro h
    have hmo : manageOutcome (m0 :: ms) entries r = .fatalExit := by
      simp [manageOutcome, hinv, h]
    exact ⟨hmo, by simp [mainRun, hmo]⟩
  · intro h
    have hmo : manageOutcome (m0 :: ms) entries r = .applied (r.stderr != "") := by
      simp [manageOutcome, hinv, h]
    exact ⟨hmo, by simp [mainRun, hmo]⟩

/-- **C2** (witness): the fatal half of the amended claim at a concrete
failing invocation. -/
theorem c2_witness :
    manageOutcome c2Monitors c2Entries ⟨1, ""⟩ = .fatalExit ∧
    mainRun c2Monitors c2Entries ⟨1, ""⟩ = ⟨true, false, none, false, 1⟩ :=
  (c2_nonzero_exit_fatal_stderr_warning_only c2Monitors c2Entries ⟨1, ""⟩
    (by decide) (by decide)).1 (by decide)

/-- **C7**: for every config entry whose name resolves and whose
position string contains no whitespace, only the position directive is
skipped: the output/auto and primary directives are emitted, the
refresh-rate tokens are handled exactly as they would be without a
position, and the emitted tokens coincide with those of the same entry
with no position at all. -/
theorem c7_spaceless_position_skips_only_position (monitors : List Monitor)
    (e : MonitorConfigEntry) (p n : String)
    (hp : e.position = some p)
    (hw : p.data.all (fun c => !c.isWhitespace) = true)
    (hn : resolve_monitor_keyword monitors e.name = some n) :
    entryDirectives monitors e =
      ["--output", n, "--auto"] ++
        (if e.primary then ["--primary"] else []) ++ rateTokens e ∧
    entryDirectives monitors e =
      entryDirectives monitors { e with position := none } := by
  have hnosp : splitAtFirst ' ' p.data = none := by
    apply splitAtFirst_eq_none
    intro x hx hxe
    have hx2 := List.all_eq_true.mp hw x hx
    rw [hxe] at hx2
    simp at hx2
  by_cases hp0 : p = ""
  · constructor
    · simp [entryDirectives, rateTokens, hn, hp, hp0, List.append_assoc]
    · simp [entryDirectives, rateTokens, hn, hp, hp0]
  · constructor
    · simp [entryDirectives, rateTokens, hn, hp, hp0, hnosp, List.append_assoc]
    · simp [entryDirectives, rateTokens, hn, hp, hp0, hnosp]

/-- **C7** (witness): the entry with position `"above"` and refresh rate
60 still emits its output/auto, primary and rate tokens. -/
theorem c7_witness :
    entryDirectives c2Monitors c7Entry =
      ["--output", "HDMI-1", "--auto"] ++
        (if c7Entry.primary then ["--primary"] else []) ++ rateTokens c7Entry ∧
    entryDirectives c2Monitors c7Entry =
      entryDirectives c2Monitors { c7Entry with position := none } :=
  c7_spaceless_position_skips_only_position c2Monitors c7Entry "above"
    "HDMI-1" rfl (by decide) (by decide)

/-- **C3** (counterexample). The claim asserts that `"largest"` and
`"smallest"` consider exactly the monitors with both width and height
known.  Monitor "A" has both dimensions known (`some 0`, `some 100`)
and a strictly smaller area than "B", yet `"smallest"` resolves to "B":
the truthiness filter of lines 165/171 drops any monitor with a zero
dimension even when it is known. -/
theorem c3_counterexample :
    resolve_monitor_keyword c3Monitors "smallest" = some "B" ∧
    (⟨"A", some 0, some 100⟩ : Monitor) ∈ c3Monitors ∧
    (Monitor.width ⟨"A", some 0, some 100⟩).isSome = true ∧
    (Monitor.height ⟨"A", some 0, some 100⟩).isSome = true ∧
    area ⟨"A", some 0, some 100⟩ < area ⟨"B", some 5, some 5⟩ := by
  decide

/-- **C3** (amended). For every inventory, `"largest"` (resp.
`"smallest"`) considers exactly the monitors whose width and height are
both known and non-zero: if none exist it resolves to `none`, otherwise
it returns the name of a monitor of that sublist with maximal (resp.
minimal) `width * height`, ties broken by first occurrence in inventory
order (every earlier sized monitor has strictly smaller resp. strictly
larger area). -/
theorem c3_largest_smallest_over_nonzero_sized (monitors : List Monitor) :
    ((monitors.filter fun m => truthy m.width && truthy m.height) = [] →
      resolve_monitor_keyword monitors "largest" = none ∧
      resolve_monitor_keyword monitors "smallest" = none) ∧
    ((monitors.filter fun m => truthy m.width && truthy m.height) ≠ [] →
      (∃ b pre suf,
        resolve_monitor_keyword monitors "largest" = some b.name ∧
        (monitors.filter fun m => truthy m.width && truthy m.height) =
          pre ++ b :: suf ∧
        (∀ x ∈ pre, area x < area b) ∧
        (∀ x ∈ monitors.filter fun m => truthy m.width && truthy m.height,
          area x ≤ area b)) ∧
      (∃ b pre suf,
        resolve_monitor_keyword monitors "smallest" = some b.name ∧
        (monitors.filter fun m => truthy m.width && truthy m.height) =
          pre ++ b :: suf ∧
        (∀ x ∈ pre, area b < area x) ∧
        (∀ x ∈ monitors.filter fun m => truthy m.width && truthy m.height,
          area b ≤ area x))) := by
  have hlg : resolve_monitor_keyword monitors "largest" =
      (maxByFirst area (monitors.filter fun m =>
        truthy m.width && truthy m.height)).map Monitor.name := rfl
  have hsm : resolve_monitor_keyword monitors "smallest" =
      (minByFirst area (monitors.filter fun m =>
        truthy m.width && truthy m.height)).map Monitor.name := rfl
  constructor
  · intro h0
    rw [hlg, hsm, h0]
    exact ⟨rfl, rfl⟩
  · intro h0
    constructor
    · obtain ⟨b, pre, suf, hmax, hdec, hpre, hle⟩ :=
        maxByFirst_spec area _ h0
      exact ⟨b, pre, suf, by rw [hlg, hmax]; rfl, hdec, hpre, hle⟩
    · obtain ⟨b, pre, suf, hmin, hdec, hpre, hle⟩ :=
        minByFirst_spec area _ h0
      exact ⟨b, pre, suf, by rw [hsm, hmin]; rfl, hdec, hpre, hle⟩

/-- **C3** (witness): the amended claim on a concrete two-monitor
inventory with distinct areas. -/
theorem c3_witness :
    (∃ b pre suf,
      resolve_monitor_keyword c3Demo "largest" = some b.name ∧
      (c3Demo.filter fun m => truthy m.width && truthy m.height) =
        pre ++ b :: suf ∧
      (∀ x ∈ pre, area x < area b) ∧
      (∀ x ∈ c3Demo.filter fun m => truthy m.width && truthy m.height,
        area x ≤ area b)) ∧
    (∃ b pre suf,
      resolve_monitor_keyword c3Demo "smallest" = some b.name ∧
      (c3Demo.filter fun m => truthy m.width && truthy m.height) =
        pre ++ b :: suf ∧
      (∀ x ∈ pre, area b < area x) ∧
      (∀ x ∈ c3Demo.filter fun m => truthy m.width && truthy m.height,
        area b ≤ area x)) :=
  (c3_largest_smallest_over_nonzero_sized c3Demo).2 (by decide)

/-- **C8**: `resolve(I, "laptop")` returns a name matching the
internal-panel naming pattern if and only if at least one monitor
record in the inventory matches that pattern, and returns `none`
exactly when no record matches. -/
theorem c8_laptop_resolution (monitors : List Monitor) :
    ((∃ nm, resolve_monitor_keyword monitors "laptop" = some nm ∧
        isLaptopName nm = true) ↔
      (∃ m ∈ monitors, isLaptopMonitor m = true)) ∧
    (resolve_monitor_keyword monitors "laptop" = none ↔
      ¬ ∃ m ∈ monitors, isLaptopMonitor m = true) := by
  have hr : resolve_monitor_keyword monitors "laptop" =
      (monitors.find? isLaptopMonitor).map Monitor.name := rfl
  cases hf : monitors.find? isLaptopMonitor with
  | none =>
      have hnone : resolve_monitor_keyword monitors "laptop" = none := by
        rw [hr, hf]
        rfl
      have hall := List.find?_eq_none.mp hf
      constructor
      · constructor
        · rintro ⟨nm, hnm, _⟩
          rw [hnone] at hnm
          exact absurd hnm (by simp)
        · rintro ⟨m, hmem, hlm⟩
          exact absurd hlm (hall m hmem)
      · constructor
        · rintro - ⟨m, hmem, hlm⟩
          exact absurd hlm (hall m hmem)
        · intro _
          exact hnone
  | some m =>
      have hsome : resolve_monitor_keyword monitors "laptop" = some m.name := by
        rw [hr, hf]
        rfl
      have hmem := List.mem_of_find?_eq_some hf
      have hlap : isLaptopMonitor m = true := List.find?_some hf
      constructor
      · constructor
        · intro _
          exact ⟨m, hmem, hlap⟩
        · intro _
          exact ⟨m.name, hsome, hlap⟩
      · constructor
        · intro h0
          rw [hsome] at h0
          exact absurd h0 (by simp)
        · intro hno
          exact absurd ⟨m, hmem, hlap⟩ hno

/-- **C8** (witness): the biconditional at a concrete one-panel
inventory. -/
theorem c8_witness :
    ((∃ nm, resolve_monitor_keyword c8Monitors "laptop" = some nm ∧
        isLaptopName nm = true) ↔
      (∃ m ∈ c8Monitors, isLaptopMonitor m = true)) ∧
    (resolve_monitor_keyword c8Monitors "laptop" = none ↔
      ¬ ∃ m ∈ c8Monitors, isLaptopMonitor m = true) :=
  c8_laptop_resolution c8Monitors

/-- **C4**: for every inventory and keyword `"external-" ++ s`, the
resolver returns `none` whenever `s` is non-numeric (the `int`
conversion fails), the parsed `N` is non-positive, or `N` exceeds the
count of non-laptop monitors; otherwise it returns the name of the Nth
non-laptop monitor in inventory order (1-based). -/
theorem c4_external_indexing (monitors : List Monitor) (s : String) :
    (pyInt s = none →
      resolve_monitor_keyword monitors ("external-" ++ s) = none) ∧
    (∀ n : Int, pyInt s = some n →
      ((n ≤ 0 ∨
          ((monitors.filter fun m => !isLaptopMonitor m).length : Int) < n) →
        resolve_monitor_keyword monitors ("external-" ++ s) = none) ∧
      (0 < n →
        n ≤ ((monitors.filter fun m => !isLaptopMonitor m).length : Int) →
        ∃ b : Monitor,
          (monitors.filter fun m => !isLaptopMonitor m).get? (n.toNat - 1) =
            some b ∧
          resolve_monitor_keyword monitors ("external-" ++ s) =
            some b.name)) := by
  have hne1 : ("external-" ++ s : String) ≠ "laptop" :=
    external_append_ne s "laptop" (by decide)
  have hne2 : ("external-" ++ s : String) ≠ "largest" :=
    external_append_ne s "largest" (by decide)
  have hne3 : ("external-" ++ s : String) ≠ "smallest" :=
    external_append_ne s "smallest" (by decide)
  have hpref : strStartsWith ("external-" ++ s) "external-" = true := by
    rw [strStartsWith, String.data_append]
    exact isPrefixOf_append_self _ _
  have hsplit : splitAtFirst '-' ("external-" ++ s).data =
      some ("external".data, s.data) := by
    have h9 : ("external-" : String).data ++ s.data =
        "external".data ++ '-' :: s.data := rfl
    rw [String.data_append, h9]
    exact splitAtFirst_append '-' _ _ (by decide)
  have hkeyNone : pyInt s = none →
      resolve_monitor_keyword monitors ("external-" ++ s) = none := by
    intro ho
    unfold resolve_monitor_keyword
    rw [if_neg hne1, if_neg hne2, if_neg hne3, if_pos hpref, hsplit]
    dsimp only
    rw [mk_data, ho]
  have hkeySome : ∀ n : Int, pyInt s = some n →
      resolve_monitor_keyword monitors ("external-" ++ s) =
        if 0 < n ∧
            n ≤ ((monitors.filter fun m => !isLaptopMonitor m).length : Int) then
          ((monitors.filter fun m => !isLaptopMonitor m).get?
            (n.toNat - 1)).map Monitor.name
        else none := by
    intro n ho
    unfold resolve_monitor_keyword
    rw [if_neg hne1, if_neg hne2, if_neg hne3, if_pos hpref, hsplit]
    dsimp only
    rw [mk_data, ho]
  refine ⟨hkeyNone, ?_⟩
  intro n hn
  constructor
  · intro hor
    rw [hkeySome n hn, if_neg ?_]
    rcases hor with h1 | h1 <;> omega
  · intro hpos hle
    have hidx : n.toNat - 1 <
        (monitors.filter fun m => !isLaptopMonitor m).length := by omega
    obtain ⟨b, hb⟩ : ∃ b,
        (monitors.filter fun m => !isLaptopMonitor m).get? (n.toNat - 1) =
          some b := by
      cases hgo : (monitors.filter fun m => !isLaptopMonitor m).get?
          (n.toNat - 1) with
      | none =>
          rw [List.get?_eq_none] at hgo
          omega
      | some b => exact ⟨b, rfl⟩
    refine ⟨b, hb, ?_⟩
    rw [hkeySome n hn, if_pos ⟨hpos, hle⟩, hb]
    rfl

/-- **C4** (witness): `"external-1"` on a laptop-plus-external inventory
selects the first non-laptop monitor. -/
theorem c4_witness :
    ∃ b : Monitor,
      (c4Monitors.filter fun m => !isLaptopMonitor m).get?
        ((1 : Int).toNat - 1) = some b ∧
      resolve_monitor_keyword c4Monitors ("external-" ++ "1") =
        some b.name :=
  ((c4_external_indexing c4Monitors "1").2 1 (by decide)).2
    (by decide) (by decide)

/-- **C10**: whenever `resolve_monitor_keyword` returns a value, across
all keyword forms, that value is the name of some monitor record of the
given inventory. -/
theorem c10_resolve_returns_inventory_member (monitors : List Monitor)
    (keyword nm : String)
    (h : resolve_monitor_keyword monitors keyword = some nm) :
    ∃ m ∈ monitors, m.name = nm := by
  unfold resolve_monitor_keyword at h
  split at h
  · rw [Option.map_eq_some'] at h
    obtain ⟨m, hf, hname⟩ := h
    exact ⟨m, List.mem_of_find?_eq_some hf, hname⟩
  · split at h
    · rw [Option.map_eq_some'] at h
      obtain ⟨b, hmax, hname⟩ := h
      exact ⟨b, List.mem_of_mem_filter (maxByFirst_mem _ _ _ hmax), hname⟩
    · split at h
      · rw [Option.map_eq_some'] at h
        obtain ⟨b, hmin, hname⟩ := h
        exact ⟨b, List.mem_of_mem_filter (minByFirst_mem _ _ _ hmin), hname⟩
      · split at h
        · split at h
          · simp at h
          · split at h
            · simp at h
            · split at h
              · rw [Option.map_eq_some'] at h
                obtain ⟨b, hget, hname⟩ := h
                exact ⟨b,
                  List.mem_of_mem_filter (List.get?_mem hget), hname⟩
              · simp at h
        · split at h
          · rename_i hany
            obtain rfl : keyword = nm := Option.some.inj h
            obtain ⟨m, hmem, hbeq⟩ := List.any_eq_true.mp hany
            exact ⟨m, hmem, by simpa using hbeq⟩
          · simp at h

/-- **C10** (witness): a literal keyword resolves to a member of the
inventory. -/
theorem c10_witness : ∃ m ∈ c4Monitors, m.name = "HDMI-1" :=
  c10_resolve_returns_inventory_member c4Monitors "HDMI-1" "HDMI-1"
    (by decide)
